import Mathlib

/-!
Verification of the quickgo service discovery, registration and
load-balancing subsystem (package grpc: etcd.go, balancer.go, the
resolver adapter and the service registrar).

Shallow embedding: the coordination store is modelled as the list of
key/value records visible to one request; stateful Go objects become
explicit state records with step functions; background goroutines become
labelled transition systems whose nondeterministic scheduling (Go select
with several ready channels) is an explicit event choice.
-/

deriving instance DecidableEq for Except

namespace QuickGo

/-- Error outcomes of the discovery operations (EtcdResolver).
`notFound` models the `fmt.Errorf("no addresses found for service: %s", ...)`
return of `EtcdResolver.Resolve`. -/
inductive DiscErr
  | notFound
  deriving DecidableEq, Repr

/-- Split a character list around every `/`, as Go `strings.Split(s, "/")`
does for this separator: the empty input yields one empty segment, a
leading/trailing/doubled separator yields empty segments in place. -/
def splitOnSlash : List Char → List (List Char)
  | [] => [[]]
  | c :: rest =>
      let r := splitOnSlash rest
      if c = '/' then [] :: r
      else (c :: r.headD []) :: r.tail

/-- Final path segment of an etcd key. Mirrors etcd.go `Resolve`:
`parts := strings.Split(keyStr, "/"); addr := parts[len(parts)-1]`.
Go `strings.Split` with a non-empty separator never yields an empty slice,
so the `len(parts) > 0` guard always passes; `splitOnSlash` likewise never
returns `[]`, so `getLastD` never falls back to its default. -/
def lastSegment (s : String) : String :=
  String.mk ((splitOnSlash s.data).getLastD [])

/-- The dedup loop of `EtcdResolver.Resolve`: walk the extracted addresses
in order, keeping the first occurrence of each (`seen` plays the role of
the Go `seen map[string]bool`). -/
def dedupAddrs : List String → List String → List String
  | [], _ => []
  | a :: rest, seen =>
      if a ∈ seen then dedupAddrs rest seen
      else a :: dedupAddrs rest (a :: seen)

/-- `EtcdResolver.Resolve` (etcd.go lines 79-108) over the list of record
keys the prefix Get returns: extract each key's final path segment as the
address, deduplicate preserving first occurrence, and fail with the
"no addresses found" error when the result is empty. -/
def etcdResolve (keys : List String) : Except DiscErr (List String) :=
  let addresses := dedupAddrs (keys.map lastSegment) []
  if addresses.isEmpty then .error .notFound else .ok addresses

theorem mem_dedupAddrs {a : String} :
    ∀ (l seen : List String), a ∈ dedupAddrs l seen ↔ a ∈ l ∧ a ∉ seen := by
  intro l
  induction l with
  | nil => intro seen; simp [dedupAddrs]
  | cons b rest ih =>
      intro seen
      by_cases hb : b ∈ seen
      · simp only [dedupAddrs, if_pos hb, ih, List.mem_cons]
        constructor
        · rintro ⟨hmem, hns⟩; exact ⟨Or.inr hmem, hns⟩
        · rintro ⟨hor, hns⟩
          rcases hor with hab | hmem
          · exact absurd (hab ▸ hb) hns
          · exact ⟨hmem, hns⟩
      · simp only [dedupAddrs, if_neg hb, List.mem_cons, ih, List.mem_cons]
        constructor
        · rintro (hab | ⟨hmem, hns⟩)
          · exact ⟨Or.inl hab, hab ▸ hb⟩
          · exact ⟨Or.inr hmem, fun h => hns (Or.inr h)⟩
        · rintro ⟨hor, hns⟩
          rcases hor with hab | hmem
          · exact Or.inl hab
          · by_cases hab : a = b
            · exact Or.inl hab
            · exact Or.inr ⟨hmem, fun h => by
                rcases h with h | h
                · exact hab h
                · exact hns h⟩

theorem nodup_dedupAddrs : ∀ (l seen : List String), (dedupAddrs l seen).Nodup := by
  intro l
  induction l with
  | nil => intro seen; simp [dedupAddrs]
  | cons b rest ih =>
      intro seen
      by_cases hb : b ∈ seen
      · simpa [dedupAddrs, if_pos hb] using ih seen
      · simp only [dedupAddrs, if_neg hb]
        refine List.nodup_cons.mpr ⟨?_, ih (b :: seen)⟩
        intro hmem
        exact ((mem_dedupAddrs rest (b :: seen)).mp hmem).2 (List.mem_cons_self b seen)

theorem toFinset_dedupAddrs (l : List String) :
    (dedupAddrs l []).toFinset = l.toFinset := by
  ext a
  simp [List.mem_toFinset, mem_dedupAddrs]

theorem length_dedupAddrs (l : List String) :
    (dedupAddrs l []).length = l.toFinset.card := by
  rw [← toFinset_dedupAddrs]
  exact (List.toFinset_card_of_nodup (nodup_dedupAddrs l [])).symm

theorem dedupAddrs_nil_iff (l : List String) :
    dedupAddrs l [] = [] ↔ l = [] := by
  cases l with
  | nil => simp [dedupAddrs]
  | cons b rest => simp [dedupAddrs]

/-- C1: for any set of N records stored under one serviceName, whose keys
determine M ≤ N distinct final-path-segment addresses, `EtcdResolver.Resolve`
returns exactly M entries — one per distinct address, without duplicates —
and it fails with the NotFound error exactly when that distinct-address set
is empty. -/
theorem etcdResolve_dedup_invariant (keys : List String) :
    ((etcdResolve keys = .error .notFound) ↔
      (keys.map lastSegment).toFinset.card = 0) ∧
    (∀ addrs, etcdResolve keys = .ok addrs →
      addrs.length = (keys.map lastSegment).toFinset.card ∧
      addrs.Nodup ∧
      addrs.toFinset = (keys.map lastSegment).toFinset ∧
      addrs.length ≤ keys.length) := by
  have hcard : (keys.map lastSegment).toFinset.card = 0 ↔ keys = [] := by
    rw [Finset.card_eq_zero, List.toFinset_eq_empty_iff, List.map_eq_nil_iff]
  constructor
  · rw [hcard]
    simp only [etcdResolve, List.isEmpty_iff]
    by_cases h : dedupAddrs (keys.map lastSegment) [] = []
    · have hk : keys = [] := List.map_eq_nil_iff.mp ((dedupAddrs_nil_iff _).mp h)
      simp [h, hk, dedupAddrs]
    · rw [if_neg h]
      constructor
      · intro hc; exact absurd hc (by simp)
      · intro hc
        exact absurd ((dedupAddrs_nil_iff _).mpr (by simp [hc])) h
  · intro addrs hok
    simp only [etcdResolve, List.isEmpty_iff] at hok
    by_cases h : dedupAddrs (keys.map lastSegment) [] = []
    · simp [h] at hok
    · rw [if_neg h] at hok
      cases hok
      refine ⟨length_dedupAddrs _, nodup_dedupAddrs _ _, toFinset_dedupAddrs _, ?_⟩
      calc (dedupAddrs (keys.map lastSegment) []).length
          = (keys.map lastSegment).toFinset.card := length_dedupAddrs _
        _ ≤ (keys.map lastSegment).length := List.toFinset_card_le _
        _ = keys.length := List.length_map _ _

/-- Witness for C1 at a concrete store: three records for service
"orders" covering two distinct addresses resolve to exactly those two. -/
theorem etcdResolve_dedup_invariant_witness :
    (etcdResolve ["/grpc/services/orders/10.0.0.5:9001",
        "/grpc/services/orders/10.0.0.6:9001",
        "/grpc/services/orders/10.0.0.5:9001"] =
      .ok ["10.0.0.5:9001", "10.0.0.6:9001"]) ∧
    ["10.0.0.5:9001", "10.0.0.6:9001"].length =
      ((["/grpc/services/orders/10.0.0.5:9001",
        "/grpc/services/orders/10.0.0.6:9001",
        "/grpc/services/orders/10.0.0.5:9001"]).map lastSegment).toFinset.card ∧
    ["10.0.0.5:9001", "10.0.0.6:9001"].Nodup := by
  have h : etcdResolve ["/grpc/services/orders/10.0.0.5:9001",
      "/grpc/services/orders/10.0.0.6:9001",
      "/grpc/services/orders/10.0.0.5:9001"] =
      .ok ["10.0.0.5:9001", "10.0.0.6:9001"] := by decide
  exact ⟨h, ((etcdResolve_dedup_invariant _).2 _ h).1,
    ((etcdResolve_dedup_invariant _).2 _ h).2.1⟩

/-! ### EtcdResolver.Watch (etcd.go lines 111-153) -/

/-- One event on the etcd watch channel for the service's key prefix.
`change` carries the full key listing visible to the re-executed `Resolve`
at processing time; `canceled` models a watch response with
`watchResp.Canceled` set, on which the background task returns. -/
inductive WatchEvent
  | canceled
  | change (keys : List String)

/-- The body of the watch goroutine of `EtcdResolver.Watch`: for each
channel event, a canceled response ends the task; otherwise the task
re-executes `Resolve` on the current store keys and invokes the callback
exactly when that `Resolve` succeeds. Returns the list of address sets
passed to the callback, in order. -/
def watchEmissions : List WatchEvent → List (List String)
  | [] => []
  | .canceled :: _ => []
  | .change ks :: rest =>
      match etcdResolve ks with
      | .ok addrs => addrs :: watchEmissions rest
      | .error _ => watchEmissions rest

/-- `EtcdResolver.Watch`: perform the initial `Resolve` on the current
store keys and invoke the callback synchronously exactly when it succeeds,
then process the stream of change events; the call itself always returns
`nil` (no synchronous failure). Result: the Go return value paired with
the full ordered list of callback invocations. -/
def etcdWatch (initKeys : List String) (events : List WatchEvent) :
    Except DiscErr Unit × List (List String) :=
  let initial :=
    match etcdResolve initKeys with
    | .ok addrs => [addrs]
    | .error _ => []
  (.ok (), initial ++ watchEmissions events)

theorem length_filterMap_resolve (l : List (List String)) :
    (l.filterMap (fun ks => (etcdResolve ks).toOption)).length =
      l.countP (fun ks => (etcdResolve ks).toOption.isSome) := by
  induction l with
  | nil => rfl
  | cons ks rest ih =>
      rw [List.filterMap_cons, List.countP_cons]
      cases h : (etcdResolve ks).toOption with
      | none => simp [h, ih]
      | some addrs => simp [h, ih]

theorem watchEmissions_change (eventKeys : List (List String)) :
    watchEmissions (eventKeys.map WatchEvent.change) =
      eventKeys.filterMap (fun ks => (etcdResolve ks).toOption) := by
  induction eventKeys with
  | nil => rfl
  | cons ks rest ih =>
      simp only [List.map_cons, watchEmissions, List.filterMap_cons]
      cases h : etcdResolve ks with
      | ok addrs => simp [h, ih, Except.toOption]
      | error e => simp [h, ih, Except.toOption]

/-- C2: the etcd-backed `Watch` invokes its callback exactly when a
`Resolve` succeeds — once synchronously at establishment when the initial
`Resolve` succeeds (equivalently, returns a non-empty set), and once per
change event whose re-executed `Resolve` succeeds; when a `Resolve` fails
(including zero instances at watch start) the callback is not invoked,
and `Watch` itself returns without a synchronous failure, keeping the
previously delivered address set. -/
theorem etcdWatch_invocations (initKeys : List String)
    (eventKeys : List (List String)) :
    ((etcdWatch initKeys (eventKeys.map WatchEvent.change)).1 = .ok ()) ∧
    ((etcdWatch initKeys (eventKeys.map WatchEvent.change)).2 =
      (match etcdResolve initKeys with
        | .ok addrs => [addrs]
        | .error _ => []) ++
      eventKeys.filterMap (fun ks => (etcdResolve ks).toOption)) ∧
    ((etcdWatch initKeys (eventKeys.map WatchEvent.change)).2.length =
      (if (etcdResolve initKeys).toOption.isSome then 1 else 0) +
        eventKeys.countP (fun ks => (etcdResolve ks).toOption.isSome)) ∧
    (etcdResolve initKeys = .error .notFound →
      (etcdWatch initKeys (eventKeys.map WatchEvent.change)).2 =
        eventKeys.filterMap (fun ks => (etcdResolve ks).toOption)) := by
  refine ⟨rfl, ?_, ?_, ?_⟩
  · simp only [etcdWatch, watchEmissions_change]
  · simp only [etcdWatch, watchEmissions_change, List.length_append,
      length_filterMap_resolve]
    cases h : etcdResolve initKeys with
    | ok addrs => simp [h, Except.toOption]
    | error e => simp [h, Except.toOption]
  · intro h
    simp [etcdWatch, h, watchEmissions_change]

/-- Witness for C2: a watch established while the store is empty makes no
synchronous callback and no failure; a later change event whose resolve
succeeds produces exactly one callback with the resolved set. -/
theorem etcdWatch_invocations_witness :
    (etcdWatch [] ([["/grpc/services/orders/10.0.0.6:9001"]].map
        WatchEvent.change)).1 = .ok () ∧
    (etcdWatch [] ([["/grpc/services/orders/10.0.0.6:9001"]].map
        WatchEvent.change)).2 = [["10.0.0.6:9001"]] := by
  refine ⟨(etcdWatch_invocations [] _).1, ?_⟩
  have h := (etcdWatch_invocations []
    [["/grpc/services/orders/10.0.0.6:9001"]]).2.2.2 (by decide)
  rw [h]; decide

/-! ### Round-robin picker (balancer.go lines 58-103) and weighted builder
(balancer.go lines 42-56) -/

/-- Ready connections are identified by an opaque handle, modelled as Nat
(the Go `balancer.SubConn` values are compared by identity). -/
abbrev SubConn := Nat

/-- Error outcomes of Pick. `noSubConnAvailable` is
`balancer.ErrNoSubConnAvailable` — the gRPC "no ready SubConn" condition
surfaced to callers as Unavailable — returned by the error picker that
`roundRobinPickerBuilder.Build` installs for an empty ready set;
`noSubConnections` is the `fmt.Errorf("no subconnections available")`
guard inside `roundRobinPicker.Pick` itself. -/
inductive PickErr
  | noSubConnAvailable
  | noSubConnections
  deriving DecidableEq, Repr

/-- State of a `roundRobinPicker`: the ready connections captured at build
time and the mutex-guarded rotation index `next`. -/
structure RoundRobinPicker where
  subConns : List SubConn
  next : Nat
  deriving DecidableEq, Repr

/-- A picker as returned by `roundRobinPickerBuilder.Build`: either the
error picker `base.NewErrPicker(balancer.ErrNoSubConnAvailable)` for an
empty ready set, or a `roundRobinPicker`. -/
inductive BuiltPicker
  | errPicker
  | rr (p : RoundRobinPicker)
  deriving DecidableEq, Repr

/-- `roundRobinPickerBuilder.Build` (balancer.go lines 62-79): empty ready
set yields the error picker; otherwise a `roundRobinPicker` over the ready
connections with `next = 0`. The list order models one iteration order of
the Go `info.ReadySCs` map. -/
def pickerBuild (readySCs : List SubConn) : BuiltPicker :=
  if readySCs.isEmpty then .errPicker else .rr ⟨readySCs, 0⟩

/-- `roundRobinPicker.Pick` (balancer.go lines 89-103): under the mutex,
fail if there are no subconnections, else return the connection at `next`
and advance `next` modulo the set size. -/
def rrPick (p : RoundRobinPicker) : Except PickErr SubConn × RoundRobinPicker :=
  if p.subConns.length = 0 then (.error .noSubConnections, p)
  else (.ok (p.subConns.getD p.next 0),
        ⟨p.subConns, (p.next + 1) % p.subConns.length⟩)

/-- Pick on a built picker: the error picker fails every call with
`ErrNoSubConnAvailable`; a round-robin picker delegates to `rrPick`. -/
def pickBuilt : BuiltPicker → Except PickErr SubConn × BuiltPicker
  | .errPicker => (.error .noSubConnAvailable, .errPicker)
  | .rr p => ((rrPick p).1, .rr (rrPick p).2)

/-- Picker state after `n` consecutive Pick calls. -/
def rrAfter (p : RoundRobinPicker) : Nat → RoundRobinPicker
  | 0 => p
  | n + 1 => (rrPick (rrAfter p n)).2

/-- Result of the `i`-th (0-based) Pick call in a consecutive sequence. -/
def rrResult (p : RoundRobinPicker) (i : Nat) : Except PickErr SubConn :=
  (rrPick (rrAfter p i)).1

theorem rrAfter_closed (scs : List SubConn) (k : Nat)
    (hk : k < scs.length) :
    ∀ i, rrAfter ⟨scs, k⟩ i = ⟨scs, (k + i) % scs.length⟩ := by
  have hlen : scs.length ≠ 0 := Nat.pos_iff_ne_zero.mp (Nat.lt_of_le_of_lt (Nat.zero_le k) hk)
  intro i
  induction i with
  | zero =>
      simp [rrAfter, Nat.mod_eq_of_lt hk]
  | succ n ih =>
      rw [rrAfter, ih]
      simp only [rrPick, if_neg hlen]
      have h2 : ((k + n) % scs.length + 1) % scs.length =
          (k + (n + 1)) % scs.length := by
        have h3 : ((k + n) % scs.length + 1) % scs.length =
            (k + n + 1) % scs.length :=
          (Nat.mod_modEq (k + n) scs.length).add_right 1
        rw [h3, Nat.add_assoc]
      rw [h2]

theorem rrResult_closed (scs : List SubConn) (k : Nat)
    (hk : k < scs.length) (i : Nat) :
    rrResult ⟨scs, k⟩ i = .ok (scs.getD ((k + i) % scs.length) 0) := by
  have hlen : scs.length ≠ 0 := Nat.pos_iff_ne_zero.mp (Nat.lt_of_le_of_lt (Nat.zero_le k) hk)
  rw [rrResult, rrAfter_closed scs k hk i, rrPick, if_neg hlen]

/-- C3: for a ready set of size N ≥ 1 held constant, from any reachable
rotation index, N consecutive Pick calls return N pairwise-distinct
connections (each a member of the ready set, in a fixed cyclic order
determined by the index arithmetic), and the (N+1)-th call repeats the
first; when the ready set is empty, the built picker fails every Pick
with `ErrNoSubConnAvailable` (surfaced as Unavailable) instead of
returning a connection. -/
theorem roundRobin_fairness (scs : List SubConn) (k : Nat)
    (hnd : scs.Nodup) (hk : k < scs.length) :
    (∀ i j, i < scs.length → j < scs.length → i ≠ j →
      rrResult ⟨scs, k⟩ i ≠ rrResult ⟨scs, k⟩ j) ∧
    (rrResult ⟨scs, k⟩ scs.length = rrResult ⟨scs, k⟩ 0) ∧
    (∀ i, ∃ c, rrResult ⟨scs, k⟩ i = .ok c ∧ c ∈ scs) ∧
    (pickerBuild scs = .rr ⟨scs, 0⟩) ∧
    (pickBuilt (pickerBuild []) = (.error .noSubConnAvailable, .errPicker)) := by
  have hpos : 0 < scs.length := Nat.lt_of_le_of_lt (Nat.zero_le k) hk
  refine ⟨?_, ?_, ?_, ?_, rfl⟩
  · intro i j hi hj hij
    rw [rrResult_closed scs k hk i, rrResult_closed scs k hk j]
    intro h
    have hmi : (k + i) % scs.length < scs.length := Nat.mod_lt _ hpos
    have hmj : (k + j) % scs.length < scs.length := Nat.mod_lt _ hpos
    rw [List.getD_eq_getElem scs 0 hmi, List.getD_eq_getElem scs 0 hmj] at h
    have hidx : (k + i) % scs.length = (k + j) % scs.length := by
      have := List.Nodup.get_inj_iff hnd
        (i := ⟨(k + i) % scs.length, hmi⟩) (j := ⟨(k + j) % scs.length, hmj⟩)
      have hget : scs.get ⟨(k + i) % scs.length, hmi⟩ =
          scs.get ⟨(k + j) % scs.length, hmj⟩ := by
        simpa [List.get_eq_getElem] using Except.ok.inj h
      exact Fin.mk.inj_iff.mp (this.mp hget)
    have hmod : i ≡ j [MOD scs.length] :=
      Nat.ModEq.add_left_cancel' k hidx
    have : i % scs.length = j % scs.length := hmod
    rw [Nat.mod_eq_of_lt hi, Nat.mod_eq_of_lt hj] at this
    exact hij this
  · rw [rrResult_closed scs k hk scs.length, rrResult_closed scs k hk 0]
    have : (k + scs.length) % scs.length = (k + 0) % scs.length := by
      simp [Nat.add_mod_right]
    rw [this]
  · intro i
    rw [rrResult_closed scs k hk i]
    refine ⟨_, rfl, ?_⟩
    have hm : (k + i) % scs.length < scs.length := Nat.mod_lt _ hpos
    rw [List.getD_eq_getElem scs 0 hm]
    exact List.getElem_mem _
  · have : ¬ scs.isEmpty := by
      cases scs with
      | nil => exact absurd hpos (by simp)
      | cons a l => simp
    simp [pickerBuild, this]

/-- Witness for C3 on the ready set {10, 20, 30} starting at index 1:
the fourth Pick repeats the first, and the first two Picks differ. -/
theorem roundRobin_fairness_witness :
    (rrResult ⟨[10, 20, 30], 1⟩ 3 = rrResult ⟨[10, 20, 30], 1⟩ 0) ∧
    (rrResult ⟨[10, 20, 30], 1⟩ 0 ≠ rrResult ⟨[10, 20, 30], 1⟩ 1) := by
  have h := roundRobin_fairness [10, 20, 30] 1 (by decide) (by decide)
  exact ⟨h.2.1, h.1 0 1 (by decide) (by decide) (by decide)⟩

/-- `weightedRoundRobinBuilder.Build` (balancer.go lines 46-51): the
weighted builder constructs its balancer with
`base.NewBalancerBuilder(WeightedRoundRobinBalancer, &roundRobinPickerBuilder{}, ...)`,
i.e. the very same `roundRobinPickerBuilder`; the `weight` argument models
the Weight metadata carried on ServiceInfo, which the construction never
reads. -/
def weightedRoundRobinBuild (readySCs : List SubConn)
    (weight : SubConn → Nat) : BuiltPicker :=
  pickerBuild readySCs

/-- Built-picker state after `n` consecutive Pick calls. -/
def builtAfter (b : BuiltPicker) : Nat → BuiltPicker
  | 0 => b
  | n + 1 => (pickBuilt (builtAfter b n)).2

/-- Result of the `i`-th Pick on a built picker. -/
def builtResult (b : BuiltPicker) (i : Nat) : Except PickErr SubConn :=
  (pickBuilt (builtAfter b i)).1

/-- C9: the weighted round-robin policy is behaviorally identical to the
plain round-robin policy: for every ready set and every weight assignment
the weighted builder produces the very same picker as the plain builder,
so every Pick in every sequence returns the same selection, and the
weight metadata is never consulted (any two weight assignments yield the
same picker). -/
theorem weightedRoundRobin_is_plain (scs : List SubConn)
    (w w' : SubConn → Nat) (i : Nat) :
    (weightedRoundRobinBuild scs w = pickerBuild scs) ∧
    (builtResult (weightedRoundRobinBuild scs w) i =
      builtResult (pickerBuild scs) i) ∧
    (weightedRoundRobinBuild scs w = weightedRoundRobinBuild scs w') :=
  ⟨rfl, rfl, rfl⟩

/-! ### Watcher bookkeeping of EtcdResolver.Watch (etcd.go lines 111-122)
and Close (lines 156-170) -/

/-- Watcher bookkeeping state of an `EtcdResolver`. Cancellation functions
are identified by tokens (`Nat`); `watchers` models the mutex-guarded Go
map `map[string]context.CancelFunc` as a partial function from serviceName
to token, `cancelled` records every token whose `context.CancelFunc` has
been called, `nextTok` supplies fresh tokens, and `installed` is the ghost
history of every (serviceName, token) pair a `Watch` call ever
installed. -/
structure WatcherState where
  watchers : String → Option Nat
  cancelled : List Nat
  nextTok : Nat
  installed : List (String × Nat)

/-- The bookkeeping prologue of `EtcdResolver.Watch` (etcd.go lines
114-122): under the lock, cancel any prior watcher for the service, then
install a fresh cancellation handle for it. -/
def watchCall (st : WatcherState) (name : String) : WatcherState :=
  { watchers := fun n => if n = name then some st.nextTok else st.watchers n
    cancelled :=
      match st.watchers name with
      | some t => t :: st.cancelled
      | none => st.cancelled
    nextTok := st.nextTok + 1
    installed := st.installed ++ [(name, st.nextTok)] }

/-- A fresh `EtcdResolver`'s watcher bookkeeping
(`watchers: make(map[string]context.CancelFunc)`). -/
def watcherInit : WatcherState := ⟨fun _ => none, [], 0, []⟩

/-- Bookkeeping state after a sequence of `Watch` calls on a fresh
resolver. -/
def watchRun (names : List String) : WatcherState :=
  names.foldl watchCall watcherInit

/-- Whether the background task bound to cancellation token `t` can still
invoke its callback: once the token is cancelled the goroutine either
returns on `watchCtx.Done()`, or — if the watch channel is drained first —
re-executes `Resolve` with the cancelled context, which fails, so the
callback is skipped either way. -/
def taskCanEmit (st : WatcherState) (t : Nat) : Bool :=
  !(st.cancelled.contains t)

/-- Invariant tying the ghost installation history to the live map: every
token ever installed for a service is either cancelled or the service's
current map entry. -/
def WatcherInv (st : WatcherState) : Prop :=
  ∀ p ∈ st.installed,
    p.2 ∈ st.cancelled ∨ st.watchers p.1 = some p.2

theorem watcherInv_init : WatcherInv watcherInit := by
  intro p hp
  simp [watcherInit] at hp

theorem watcherInv_step (st : WatcherState) (name : String)
    (h : WatcherInv st) : WatcherInv (watchCall st name) := by
  intro p hp
  simp only [watchCall, List.mem_append, List.mem_singleton] at hp
  rcases hp with hold | hnew
  · rcases h p hold with hc | hcur
    · left
      cases hg : st.watchers name <;> simp [watchCall, hg, hc]
    · by_cases hn : p.1 = name
      · left
        rw [hn] at hcur
        simp [watchCall, hcur]
      · right
        simp [watchCall, hn]
        exact hcur
  · right
    subst hnew
    simp [watchCall]

theorem watcherInv_run (names : List String) : WatcherInv (watchRun names) := by
  suffices h : ∀ st, WatcherInv st → WatcherInv (names.foldl watchCall st) from
    h watcherInit watcherInv_init
  induction names with
  | nil => intro st h; exact h
  | cons n rest ih =>
      intro st h
      exact ih (watchCall st n) (watcherInv_step st n h)

/-- C4: after any sequence of `Watch` calls, the resolver holds at most
one live watch handle per serviceName — any two installed tokens for the
same name whose background tasks can still emit are the same token — and
each new `Watch` call for a name cancels the prior handle before
installing its own, so the prior handle's background task can produce no
further callback invocations. -/
theorem watch_replacement (names : List String) (name : String) :
    (∀ t t', (name, t) ∈ (watchRun names).installed →
      (name, t') ∈ (watchRun names).installed →
      taskCanEmit (watchRun names) t = true →
      taskCanEmit (watchRun names) t' = true → t = t') ∧
    (∀ st t, st.watchers name = some t →
      t ∈ (watchCall st name).cancelled ∧
      taskCanEmit (watchCall st name) t = false ∧
      (watchCall st name).watchers name = some st.nextTok) := by
  constructor
  · intro t t' ht ht' he he'
    have hinv := watcherInv_run names
    have h1 := hinv (name, t) ht
    have h2 := hinv (name, t') ht'
    have hne : t ∉ (watchRun names).cancelled := by
      simpa [taskCanEmit] using he
    have hne' : t' ∉ (watchRun names).cancelled := by
      simpa [taskCanEmit] using he'
    rcases h1 with hc | hcur
    · exact absurd hc hne
    · rcases h2 with hc | hcur'
      · exact absurd hc hne'
      · exact Option.some.inj (hcur.symm.trans hcur')
  · intro st t hg
    refine ⟨?_, ?_, ?_⟩
    · simp [watchCall, hg]
    · simp [taskCanEmit, watchCall, hg]
    · simp [watchCall]

/-- Witness for C4: two `Watch` calls for "orders" on a fresh resolver,
applied through the theorem — the prior token 0 is cancelled by the
second call, its task can no longer emit, and the map points at token 1. -/
theorem watch_replacement_witness :
    (0 : Nat) ∈ (watchCall (watchCall watcherInit "orders") "orders").cancelled ∧
    taskCanEmit (watchCall (watchCall watcherInit "orders") "orders") 0 = false := by
  have h := (watch_replacement ["orders"] "orders").2
    (watchCall watcherInit "orders") 0 (by decide)
  exact ⟨h.1, h.2.1⟩

/-! ### Resolver adapter: serviceResolver.start, updateState, ResolveNow
(resolver adapter source, lines 128-190) -/

/-- The connection manager's address state as last pushed via
`cc.UpdateState`; `none` models a client that has never received an
address list (the empty initial state). -/
abbrev CCState := Option (List String)

/-- `serviceResolver.updateState`: an empty address list is logged and
skipped — `cc.UpdateState` is not called and the previously pushed
addresses remain in effect; a non-empty list is pushed wholesale. -/
def updateState (cc : CCState) (addresses : List String) : CCState :=
  if addresses.length = 0 then cc else some addresses

/-- Outcome of `serviceResolver.start`: the connection-manager state after
the routine (and any watch callbacks) ran, and whether `sd.Watch` was
called. -/
structure StartResult where
  cc : CCState
  watchCalled : Bool
  deriving DecidableEq, Repr

/-- `serviceResolver.start` (resolver adapter, lines 128-153): perform the
initial `Resolve`; on failure log the error and return — in the source the
`return` statement is reached before the `Watch` goroutine is spawned; on
success push the addresses through `updateState` and start the watch, each
of whose callback address lists is pushed through `updateState` in
order. -/
def startRun (res : Except DiscErr (List String))
    (watchUpdates : List (List String)) (cc0 : CCState) : StartResult :=
  match res with
  | .error _ => ⟨cc0, false⟩
  | .ok addresses =>
      ⟨watchUpdates.foldl updateState (updateState cc0 addresses), true⟩

/-- `serviceResolver.ResolveNow` (lines 182-190): re-run the synchronous
`Resolve`; on failure log and keep the state, on success push through
`updateState`. -/
def resolveNow (res : Except DiscErr (List String)) (cc : CCState) : CCState :=
  match res with
  | .error _ => cc
  | .ok addresses => updateState cc addresses

/-- C5 counterexample: the claim asserts that when the initial `Resolve`
fails, `start` still calls `Watch`; on the code, a failed initial
`Resolve` makes `start` return before the watch goroutine is spawned, so
`Watch` is not called. -/
theorem startRun_no_watch_on_failure :
    ¬ ((startRun (.error .notFound) [["10.0.0.5:9001"]] none).watchCalled = true) := by
  decide

/-- C5 amended: on construction one initial `Resolve` is performed; if it
fails, the failure is logged and `start` returns immediately — the client
is left with its previous (empty) address set and `Watch` is not called,
so no watch-triggered updates are delivered; only when the initial
`Resolve` succeeds does `start` push the result and call `Watch`, whose
callbacks push fresh address sets into the connection manager. -/
theorem startRun_behaviour (e : DiscErr) (addresses : List String)
    (watchUpdates : List (List String)) (cc0 : CCState) :
    (startRun (.error e) watchUpdates cc0 = ⟨cc0, false⟩) ∧
    (startRun (.ok addresses) watchUpdates cc0 =
      ⟨watchUpdates.foldl updateState (updateState cc0 addresses), true⟩) :=
  ⟨rfl, rfl⟩

/-- C10: the resolver adapter never pushes an empty address list: on every
state-update path — the initial resolve in `start`, a watch callback, and
a manual `ResolveNow` — an empty list leaves the previously pushed
addresses in effect, and in particular a start whose resolve produced an
empty list followed by any number of empty watch callbacks leaves the
connection manager untouched. -/
theorem updateState_never_empty (cc : CCState) (n : Nat) :
    (updateState cc [] = cc) ∧
    (∀ addresses, addresses ≠ [] → updateState cc addresses = some addresses) ∧
    (resolveNow (.ok []) cc = cc) ∧
    ((startRun (.ok []) (List.replicate n []) cc).cc = cc) := by
  refine ⟨rfl, ?_, rfl, ?_⟩
  · intro addresses h
    simp [updateState, List.length_eq_zero, h]
  · simp only [startRun]
    have hfold : ∀ m c, (List.replicate m ([] : List String)).foldl updateState c = c := by
      intro m
      induction m with
      | zero => intro c; rfl
      | succ k ih =>
          intro c
          simp only [List.replicate, List.foldl_cons]
          exact ih _
    rw [hfold]
    rfl

/-- Witness for C10: a non-empty push followed by an empty delivery keeps
the previous addresses. -/
theorem updateState_never_empty_witness :
    updateState (some ["10.0.0.5:9001"]) [] = some ["10.0.0.5:9001"] ∧
    updateState none ["10.0.0.6:9001"] = some ["10.0.0.6:9001"] ∧
    (startRun (.ok []) (List.replicate 2 []) (some ["10.0.0.5:9001"])).cc =
      some ["10.0.0.5:9001"] := by
  refine ⟨(updateState_never_empty (some ["10.0.0.5:9001"]) 2).1, ?_, ?_⟩
  · exact (updateState_never_empty none 2).2.1 _ (by decide)
  · exact (updateState_never_empty (some ["10.0.0.5:9001"]) 2).2.2.2

/-! ### EtcdRegistry (etcd.go lines 172-334) -/

/-- Error outcomes of the registration operations. `notRegistered` is the
`fmt.Errorf("service not registered")` of `EtcdRegistry.KeepAlive`. -/
inductive RegErr
  | notRegistered
  deriving DecidableEq, Repr

/-- Value written for a registration record: the bare address when the
metadata map is empty, else the JSON-encoded metadata map
(`json.Marshal` of a `map[string]string` never fails, so the `err == nil`
branch is always taken when metadata is non-empty). -/
inductive RecordValue
  | bare (address : String)
  | metaJSON (metadata : List (String × String))
  deriving DecidableEq, Repr

/-- The coordination store as one registry's operations observe it: the
set of live (unrevoked, unexpired) lease IDs, the key space as a partial
function from key to (value, bound lease), and a fresh-lease counter
standing for the server-chosen lease IDs (`Grant` never returns 0, the
"no lease" sentinel). -/
structure EtcdStore where
  leases : List Nat
  kvs : String → Option (RecordValue × Nat)
  nextLease : Nat

/-- Revoking a lease removes it from the live set; the store then drops
every key bound to it. -/
def revokeLease (s : EtcdStore) (lid : Nat) : EtcdStore :=
  { s with
    leases := s.leases.filter (fun l => !(l == lid))
    kvs := fun k =>
      match s.kvs k with
      | some (v, l) => if l = lid then none else some (v, l)
      | none => none }

/-- `EtcdRegistry` fields relevant to the lease lifecycle: the key space
root (Go field `prefix`, default "/grpc/services"), the lease TTL in
seconds, the held lease ID (`clientv3.LeaseID` zero value 0 means no
lease held), and the keepalive-stream handle `leaseKeep`, modelled by the
lease ID it renews. -/
structure EtcdRegistry where
  pfx : String
  ttl : Nat
  leaseID : Nat
  leaseKeep : Option Nat
  deriving DecidableEq, Repr

/-- Registration key, `path.Join(prefix, serviceName, address)`: for clean
slash-free components this is the three segments joined by "/". -/
def regKey (pfx name address : String) : String :=
  pfx ++ "/" ++ name ++ "/" ++ address

/-- `EtcdRegistry.Register` (etcd.go lines 223-271): grant a fresh lease
with the provider's TTL and overwrite the held lease ID, write the record
under `prefix/serviceName/address` bound to the new lease (an etcd Put
replaces any previous binding of that key), then start the keepalive
stream for the new lease. Nothing is revoked and no other key is
touched. -/
def registerOp (r : EtcdRegistry) (s : EtcdStore) (name address : String)
    (metadata : List (String × String)) : EtcdRegistry × EtcdStore :=
  let lid := s.nextLease
  let value := if metadata.isEmpty then RecordValue.bare address
    else RecordValue.metaJSON metadata
  let key := regKey r.pfx name address
  ({ r with leaseID := lid, leaseKeep := some lid },
   { leases := lid :: s.leases
     kvs := fun k => if k = key then some (value, lid) else s.kvs k
     nextLease := s.nextLease + 1 })

/-- `EtcdRegistry.Deregister` (etcd.go lines 274-297): when a lease is
held, revoke it (clearing the held handle and keepalive); then — held
lease or not — delete the key `prefix/serviceName/address`, and return
`nil`. -/
def deregisterOp (r : EtcdRegistry) (s : EtcdStore) (name address : String) :
    EtcdRegistry × EtcdStore × Except RegErr Unit :=
  let r1 := if r.leaseID ≠ 0 then { r with leaseID := 0, leaseKeep := none } else r
  let s1 := if r.leaseID ≠ 0 then revokeLease s r.leaseID else s
  let key := regKey r.pfx name address
  (r1, { s1 with kvs := fun k => if k = key then none else s1.kvs k }, .ok ())

/-- `EtcdRegistry.KeepAlive` (etcd.go lines 300-315): error when no lease
is held, else renew the held lease once. -/
def keepAliveOp (r : EtcdRegistry) : Except RegErr Unit :=
  if r.leaseID = 0 then .error .notRegistered else .ok ()

/-- `EtcdRegistry.Close` (etcd.go lines 318-334): revoke the held lease if
any and clear the handles; always returns the client-close result
(`nil` in this model). -/
def closeOp (r : EtcdRegistry) (s : EtcdStore) :
    EtcdRegistry × EtcdStore × Except RegErr Unit :=
  if r.leaseID ≠ 0 then
    ({ r with leaseID := 0, leaseKeep := none }, revokeLease s r.leaseID, .ok ())
  else (r, s, .ok ())

/-- C6 counterexample: the claim says `Deregister` with no held lease
changes no store state; on the code the key delete is unconditional, so a
store holding the key (here bound to another provider's lease 7) loses it
even though the deregistering provider holds no lease. -/
theorem deregister_deletes_without_lease :
    ¬ ((deregisterOp ⟨"/grpc/services", 30, 0, none⟩
        ⟨[7], fun k => if k = "/grpc/services/orders/10.0.0.5:9001"
          then some (.bare "10.0.0.5:9001", 7) else none, 8⟩
        "orders" "10.0.0.5:9001").2.1.kvs
        "/grpc/services/orders/10.0.0.5:9001" =
      some (.bare "10.0.0.5:9001", 7)) := by
  decide

/-- C6 amended: with no held lease, `Close` is a complete no-op returning
no error, and `Deregister` revokes no lease, leaves the registry fields
and the live-lease set untouched and returns no error — but it still
unconditionally deletes the key `prefix/serviceName/address`, which is
the only store state it may change. -/
theorem lease_lifecycle_idempotence (r : EtcdRegistry) (s : EtcdStore)
    (name address : String) (h : r.leaseID = 0) :
    (closeOp r s = (r, s, .ok ())) ∧
    ((deregisterOp r s name address).1 = r) ∧
    ((deregisterOp r s name address).2.2 = .ok ()) ∧
    ((deregisterOp r s name address).2.1.leases = s.leases) ∧
    ((deregisterOp r s name address).2.1.nextLease = s.nextLease) ∧
    (∀ k, k ≠ regKey r.pfx name address →
      (deregisterOp r s name address).2.1.kvs k = s.kvs k) ∧
    ((deregisterOp r s name address).2.1.kvs (regKey r.pfx name address) = none) ∧
    (keepAliveOp r = .error .notRegistered) := by
  have hne : ¬ (r.leaseID ≠ 0) := by simp [h]
  refine ⟨?_, ?_, rfl, ?_, ?_, ?_, ?_, ?_⟩
  · simp [closeOp, hne]
  · simp [deregisterOp, hne]
  · simp [deregisterOp, hne]
  · simp [deregisterOp, hne]
  · intro k hk
    simp [deregisterOp, hne, hk]
  · simp [deregisterOp, hne]
  · simp [keepAliveOp, h]

/-- Witness for C6: a no-lease provider against a store not containing its
key — Close is a no-op and Deregister returns no error. -/
theorem lease_lifecycle_idempotence_witness :
    (closeOp ⟨"/grpc/services", 30, 0, none⟩ ⟨[], fun _ => none, 1⟩ =
      (⟨"/grpc/services", 30, 0, none⟩, ⟨[], fun _ => none, 1⟩, .ok ())) ∧
    ((deregisterOp ⟨"/grpc/services", 30, 0, none⟩ ⟨[], fun _ => none, 1⟩
      "orders" "10.0.0.5:9001").2.2 = .ok ()) := by
  have h := lease_lifecycle_idempotence ⟨"/grpc/services", 30, 0, none⟩
    ⟨[], fun _ => none, 1⟩ "orders" "10.0.0.5:9001" rfl
  exact ⟨h.1, h.2.2.1⟩

/-- C7 counterexample: registering the same serviceName and address twice
without a `Deregister` re-binds the first registration's key to the newly
granted lease — store state belonging to the first registration, beyond
the provider's held-lease handle, is modified by the second `Register`. -/
theorem register_twice_rebinds_key :
    ((registerOp
        (registerOp ⟨"/grpc/services", 30, 0, none⟩ ⟨[], fun _ => none, 1⟩
          "orders" "10.0.0.5:9001" []).1
        (registerOp ⟨"/grpc/services", 30, 0, none⟩ ⟨[], fun _ => none, 1⟩
          "orders" "10.0.0.5:9001" []).2
        "orders" "10.0.0.5:9001" []).2.kvs
        "/grpc/services/orders/10.0.0.5:9001" ≠
      (registerOp ⟨"/grpc/services", 30, 0, none⟩ ⟨[], fun _ => none, 1⟩
          "orders" "10.0.0.5:9001" []).2.kvs
        "/grpc/services/orders/10.0.0.5:9001") := by
  decide

/-- C7 amended: a second `Register` before any `Deregister` silently
replaces the held-lease handle (the `leaseID` field and its keepalive
handle) with the newly granted lease, leaves the previous lease
unrevoked in the live set, and — provided the second registration's key
differs from the first's — leaves the first key's binding and TTL
countdown untouched; when the two keys coincide, the key is re-bound to
the new lease. No other registry field changes. -/
theorem register_twice_replaces_lease (r : EtcdRegistry) (s : EtcdStore)
    (name1 addr1 name2 addr2 : String)
    (md1 md2 : List (String × String))
    (hk : regKey r.pfx name2 addr2 ≠ regKey r.pfx name1 addr1) :
    ((registerOp (registerOp r s name1 addr1 md1).1
        (registerOp r s name1 addr1 md1).2 name2 addr2 md2).1.leaseID =
      (registerOp r s name1 addr1 md1).2.nextLease) ∧
    ((registerOp (registerOp r s name1 addr1 md1).1
        (registerOp r s name1 addr1 md1).2 name2 addr2 md2).1.leaseKeep =
      some (registerOp r s name1 addr1 md1).2.nextLease) ∧
    ((registerOp r s name1 addr1 md1).1.leaseID ∈
      (registerOp (registerOp r s name1 addr1 md1).1
        (registerOp r s name1 addr1 md1).2 name2 addr2 md2).2.leases) ∧
    ((registerOp (registerOp r s name1 addr1 md1).1
        (registerOp r s name1 addr1 md1).2 name2 addr2 md2).2.kvs
        (regKey r.pfx name1 addr1) =
      (registerOp r s name1 addr1 md1).2.kvs (regKey r.pfx name1 addr1)) ∧
    ((registerOp (registerOp r s name1 addr1 md1).1
        (registerOp r s name1 addr1 md1).2 name2 addr2 md2).1.pfx = r.pfx) ∧
    ((registerOp (registerOp r s name1 addr1 md1).1
        (registerOp r s name1 addr1 md1).2 name2 addr2 md2).1.ttl = r.ttl) := by
  refine ⟨rfl, rfl, ?_, ?_, rfl, rfl⟩
  · simp [registerOp]
  · simp only [registerOp]
    rw [if_neg (Ne.symm hk)]

/-- Witness for C7: two registrations of distinct addresses — the first
lease stays live and the first key keeps its binding. -/
theorem register_twice_replaces_lease_witness :
    ((registerOp ⟨"/grpc/services", 30, 0, none⟩ ⟨[], fun _ => none, 1⟩
        "orders" "10.0.0.5:9001" []).1.leaseID ∈
      (registerOp
        (registerOp ⟨"/grpc/services", 30, 0, none⟩ ⟨[], fun _ => none, 1⟩
          "orders" "10.0.0.5:9001" []).1
        (registerOp ⟨"/grpc/services", 30, 0, none⟩ ⟨[], fun _ => none, 1⟩
          "orders" "10.0.0.5:9001" []).2
        "orders" "10.0.0.6:9001" []).2.leases) ∧
    ((registerOp
        (registerOp ⟨"/grpc/services", 30, 0, none⟩ ⟨[], fun _ => none, 1⟩
          "orders" "10.0.0.5:9001" []).1
        (registerOp ⟨"/grpc/services", 30, 0, none⟩ ⟨[], fun _ => none, 1⟩
          "orders" "10.0.0.5:9001" []).2
        "orders" "10.0.0.6:9001" []).2.kvs
        (regKey "/grpc/services" "orders" "10.0.0.5:9001") =
      (registerOp ⟨"/grpc/services", 30, 0, none⟩ ⟨[], fun _ => none, 1⟩
        "orders" "10.0.0.5:9001" []).2.kvs
        (regKey "/grpc/services" "orders" "10.0.0.5:9001")) := by
  have h := register_twice_replaces_lease ⟨"/grpc/services", 30, 0, none⟩
    ⟨[], fun _ => none, 1⟩ "orders" "10.0.0.5:9001" "orders" "10.0.0.6:9001"
    [] [] (by decide)
  exact ⟨h.2.2.1, h.2.2.2.1⟩

/-! ### ServiceRegistrar heartbeat task (StartKeepAlive and Close) -/

/-- State of the `StartKeepAlive` background goroutine and its
surroundings: whether `Close` has cancelled the registrar's context,
whether the goroutine has returned, whether a ticker tick is waiting in
`keepAliveTicker.C` (a capacity-one channel), and how many times
`registry.KeepAlive` has been invoked. `Close` does not stop the ticker
(only `Deregister` calls `Stop`), so ticks keep arriving after `Close`. -/
structure KeepAliveState where
  closed : Bool
  exited : Bool
  tickPending : Bool
  kaCalls : Nat
  deriving DecidableEq, Repr

/-- Scheduling events of the heartbeat loop. `tick`: the interval elapses
and the ticker delivers on its channel. `closeCall`: `Close` cancels the
context (`sr.cancel()`). `selDone`: the loop's `select` takes the
`<-sr.ctx.Done()` branch, only ready once closed, and the goroutine
returns. `selTick`: the `select` takes the `<-sr.keepAliveTicker.C`
branch, only ready when a tick is pending, and invokes
`registry.KeepAlive`; a Go `select` with several ready channels chooses
among them nondeterministically, so after `Close` both loop branches stay
enabled whenever a tick is pending. -/
inductive KeepAliveEvent
  | tick
  | closeCall
  | selDone
  | selTick
  deriving DecidableEq, Repr

/-- One enabled transition of the heartbeat system; `none` when the event
is not enabled in the state. -/
def kaStep (st : KeepAliveState) : KeepAliveEvent → Option KeepAliveState
  | .tick => some { st with tickPending := true }
  | .closeCall => some { st with closed := true }
  | .selDone =>
      if st.exited || !st.closed then none
      else some { st with exited := true }
  | .selTick =>
      if st.exited || !st.tickPending then none
      else some { st with tickPending := false, kaCalls := st.kaCalls + 1 }

/-- Run a sequence of scheduling events; the run is valid (yields `some`)
exactly when every event was enabled when it occurred. -/
def kaRun (st : KeepAliveState) : List KeepAliveEvent → Option KeepAliveState
  | [] => some st
  | e :: rest =>
      match kaStep st e with
      | some st' => kaRun st' rest
      | none => none

/-- State right after `StartKeepAlive` spawns the goroutine. -/
def kaInit : KeepAliveState := ⟨false, false, false, 0⟩

/-- C8 counterexample: the claim says no `KeepAlive` invocation happens
after `Close` no matter how many intervals elapse; the valid schedule
Close - tick - select-picks-tick invokes `KeepAlive` once strictly after
`Close`, because the cancelled context only disables the loop when the
`select` actually takes the Done branch, and `Close` leaves the ticker
running. -/
theorem keepAlive_after_close_possible :
    ¬ (∀ (pre post : List KeepAliveEvent) (st : KeepAliveState),
        kaRun kaInit (pre ++ KeepAliveEvent.closeCall :: post) = some st →
        KeepAliveEvent.selTick ∉ post) := by
  intro h
  exact h [] [.tick, .selTick] ⟨true, false, false, 1⟩ (by decide)
    (by decide)

theorem kaRun_exited (evs : List KeepAliveEvent) :
    ∀ st st', st.exited = true → kaRun st evs = some st' →
      st'.kaCalls = st.kaCalls ∧ st'.exited = true := by
  induction evs with
  | nil =>
      intro st st' hex hrun
      cases hrun
      exact ⟨rfl, hex⟩
  | cons e rest ih =>
      intro st st' hex hrun
      cases e with
      | tick =>
          simp only [kaRun, kaStep] at hrun
          exact ih { st with tickPending := true } st' hex hrun
      | closeCall =>
          simp only [kaRun, kaStep] at hrun
          exact ih { st with closed := true } st' hex hrun
      | selDone =>
          simp [kaRun, kaStep, hex] at hrun
      | selTick =>
          simp [kaRun, kaStep, hex] at hrun

/-- C8 amended: heartbeat cessation is tied to the goroutine's exit, not
to `Close` itself — `Close` only makes the Done branch of the select
ready. The select can only take the Done branch once `Close` has
cancelled the context, and from the moment it does (the goroutine
returns), no further `KeepAlive` invocation occurs regardless of how many
ticker intervals elapse; until that moment a pending tick may still win
the select and invoke `KeepAlive` after `Close`. -/
theorem keepAlive_ceases_after_exit (evs : List KeepAliveEvent)
    (st st' : KeepAliveState)
    (hex : st.exited = true) (hrun : kaRun st evs = some st') :
    (st'.kaCalls = st.kaCalls ∧ st'.exited = true) ∧
    (∀ q q', q.exited = false → kaStep q .selDone = some q' → q.closed = true) := by
  refine ⟨kaRun_exited evs st st' hex hrun, ?_⟩
  intro q q' hq hstep
  by_cases hc : q.closed
  · exact hc
  · simp [kaStep, hq, hc] at hstep

/-- Witness for C8: once the goroutine has taken the Done branch after
Close, even two further elapsed intervals (ticks) cause no KeepAlive
invocation. -/
theorem keepAlive_ceases_after_exit_witness :
    ∃ st', kaRun ⟨true, true, false, 1⟩ [.tick, .tick] = some st' ∧
      st'.kaCalls = 1 ∧ st'.exited = true := by
  refine ⟨⟨true, true, true, 1⟩, by decide, ?_, ?_⟩
  · exact ((keepAlive_ceases_after_exit [.tick, .tick] ⟨true, true, false, 1⟩
      ⟨true, true, true, 1⟩ (by decide) (by decide)).1).1
  · exact ((keepAlive_ceases_after_exit [.tick, .tick] ⟨true, true, false, 1⟩
      ⟨true, true, true, 1⟩ (by decide) (by decide)).1).2

end QuickGo
